import Mathlib

/-!
# Verification of the mqttrs CONNECT/CONNACK codec

A shallow embedding of `src/connect.rs`, `src/utils.rs` and the variable-length
integer / length-prefixed string codecs of the crate, together with proofs of the
specified properties.

Bytes are modelled as `Nat` (values below 256), buffers as `List Nat`.  A Rust
panic (e.g. `.unwrap()` on an `Err`, or a `bytes::BytesMut::split_to` past the
end of the buffer) is modelled as the distinguished outcome `RunError.panicked`,
kept apart from `io::Error` values that are returned to the caller.
-/

deriving instance DecidableEq for Except

namespace Mqttrs

/-- The `std::io::ErrorKind` values used by this crate. -/
inductive ErrorKind where
  | invalidData
  | invalidInput
deriving DecidableEq

/-- Outcome of running a fallible codec operation: either a Rust panic (process
abort) or an `io::Error` with its kind and message, or one of the framing
errors of the spec's §7 taxonomy: `MalformedLength` from the remaining-length
decoder, and `TrailingData`/`Truncated` from the consumed-vs-declared check of
the dispatcher (§4.3). -/
inductive RunError where
  | panicked
  | ioError (kind : ErrorKind) (msg : String)
  | malformedLength
  | trailingData
  | truncated
deriving DecidableEq

/-- `utils.rs` `Protocol`: a protocol family tag carrying a version level byte.
The payload is an arbitrary byte, exactly as in the Rust `enum`. -/
inductive Protocol where
  | MQIsdp (level : Nat)
  | MQTT (level : Nat)
deriving DecidableEq

/-- The UTF-8 bytes of the protocol name "MQIsdp". -/
def protocolNameMQIsdp : List Nat := [77, 81, 73, 115, 100, 112]

/-- The UTF-8 bytes of the protocol name "MQTT". -/
def protocolNameMQTT : List Nat := [77, 81, 84, 84]

/-- `Protocol::new` (utils.rs lines 98-110): validates a name/level pair. -/
def Protocol.new (name : List Nat) (level : Nat) : Except RunError Protocol :=
  if name = protocolNameMQIsdp then
    if level = 3 then .ok (.MQIsdp 3) else .error (.ioError .invalidData "")
  else if name = protocolNameMQTT then
    if level = 4 then .ok (.MQTT 4) else .error (.ioError .invalidData "")
  else
    .error (.ioError .invalidData "")

/-- `Protocol::name` (utils.rs lines 112-117). -/
def Protocol.name : Protocol → List Nat
  | .MQIsdp _ => protocolNameMQIsdp
  | .MQTT _ => protocolNameMQTT

/-- `Protocol::level` (utils.rs lines 119-124). -/
def Protocol.level : Protocol → Nat
  | .MQIsdp l => l
  | .MQTT l => l

/-- `utils.rs` `QoS`. -/
inductive QoS where
  | AtMostOnce
  | AtLeastOnce
  | ExactlyOnce
deriving DecidableEq

/-- `QoS::to_u8` (utils.rs lines 41-47). -/
def QoS.to_u8 : QoS → Nat
  | .AtMostOnce => 0
  | .AtLeastOnce => 1
  | .ExactlyOnce => 2

/-- `QoS::from_u8` (utils.rs lines 48-55). -/
def QoS.from_u8 (byte : Nat) : Except RunError QoS :=
  match byte with
  | 0 => .ok .AtMostOnce
  | 1 => .ok .AtLeastOnce
  | 2 => .ok .ExactlyOnce
  | _ => .error (.ioError .invalidData "Qos > 2")

/-- `utils.rs` `PacketIdentifier`: wraps the value of the inner `NonZeroU16`. -/
structure PacketIdentifier where
  val : Nat
deriving DecidableEq

/-- `PacketIdentifier::new` (utils.rs lines 10-15): `NonZeroU16::new` yields
`None` exactly on input 0, which is turned into an `InvalidData` error. -/
def PacketIdentifier.new (u : Nat) : Except RunError PacketIdentifier :=
  if u = 0 then .error (.ioError .invalidData "Pid == 0") else .ok ⟨u⟩

/-- `PacketIdentifier::get` (utils.rs lines 16-18). -/
def PacketIdentifier.get (p : PacketIdentifier) : Nat := p.val

/-- `utils.rs` `ConnectReturnCode`. -/
inductive ConnectReturnCode where
  | Accepted
  | RefusedProtocolVersion
  | RefusedIdentifierRejected
  | ServerUnavailable
  | BadUsernamePassword
  | NotAuthorized
deriving DecidableEq

/-- `ConnectReturnCode::from_u8` (utils.rs lines 139-149). -/
def ConnectReturnCode.from_u8 (byte : Nat) : Except RunError ConnectReturnCode :=
  match byte with
  | 0 => .ok .Accepted
  | 1 => .ok .RefusedProtocolVersion
  | 2 => .ok .RefusedIdentifierRejected
  | 3 => .ok .ServerUnavailable
  | 4 => .ok .BadUsernamePassword
  | 5 => .ok .NotAuthorized
  | _ => .error (.ioError .invalidInput "")

/-- `utils.rs` `LastWill`.  String/byte contents are byte lists. -/
structure LastWill where
  topic : List Nat
  message : List Nat
  qos : QoS
  retain : Bool
deriving DecidableEq

/-- `connect.rs` `Connect` (lines 5-14). -/
structure Connect where
  protocol : Protocol
  keep_alive : Nat
  client_id : List Nat
  clean_session : Bool
  last_will : Option LastWill
  username : Option (List Nat)
  password : Option (List Nat)
deriving DecidableEq

/-- `connect.rs` `Connack` (lines 16-20). -/
structure Connack where
  session_present : Bool
  code : ConnectReturnCode
deriving DecidableEq

/-- `buffer.split_to(1).into_buf().get_u8()`: reads one byte, panicking when the
buffer is empty (as `split_to` does). -/
def readU8 : List Nat → Except RunError (Nat × List Nat)
  | b :: rest => .ok (b, rest)
  | [] => .error .panicked

/-- `buffer.split_to(2).into_buf().get_u16_be()`: reads a big-endian 16-bit
value, panicking when fewer than two bytes remain. -/
def readU16 : List Nat → Except RunError (Nat × List Nat)
  | b0 :: b1 :: rest => .ok (b0 * 256 + b1, rest)
  | _ => .error .panicked

/-- The big-endian byte pair written by `put_u16_be` for a 16-bit value. -/
def u16be (n : Nat) : List Nat := [n / 256 % 256, n % 256]

/-- Rust `.unwrap()` on a `Result`: panics on an error value. -/
def unwrapE {α : Type} : Except RunError α → Except RunError α
  | .ok a => .ok a
  | .error _ => .error .panicked

/-- Modelled from the spec: `utils::read_string`, whose definition is not under
`src/` (spec §4.2): reads a 16-bit big-endian length and then exactly that many
bytes.  Its uses in `connect.rs` return a bare `String`, so running past the end
of the buffer panics (as `split_to` does) rather than returning an error. -/
def read_string : List Nat → Except RunError (List Nat × List Nat)
  | b0 :: b1 :: rest =>
    let len := b0 * 256 + b1
    if len ≤ rest.length then .ok (rest.take len, rest.drop len) else .error .panicked
  | _ => .error .panicked

/-- Modelled from the spec: `encoder::write_string`, whose definition is not
under `src/` (spec §4.2, §7): writes the 16-bit big-endian byte length of the
payload followed by the payload bytes, and reports an error instead of silently
truncating when the payload exceeds the 65535-byte length-prefix ceiling. -/
def write_string (s : List Nat) : Except RunError (List Nat) :=
  if s.length > 65535 then .error (.ioError .invalidData "") else .ok (u16be s.length ++ s)

/-- The loop of the variable-length ("remaining length") encoder (spec §4.1):
7 bits per byte, low group first, continuation bit set on every byte except the
last; at least one byte, also for 0.  The fuel argument only makes the loop
structurally recursive: the value shrinks at every step, so any fuel above the
value gives the loop's fixpoint (see `encodeLenCore_eq`). -/
def encodeLenLoop (fuel v : Nat) : List Nat :=
  match fuel with
  | 0 => [v % 128]
  | fuel + 1 =>
    if v / 128 = 0 then [v % 128]
    else (v % 128 + 128) :: encodeLenLoop fuel (v / 128)

/-- The byte sequence of the variable-length ("remaining length") encoding of a
value (spec §4.1). -/
def encodeLenCore (v : Nat) : List Nat := encodeLenLoop (v + 1) v

/-- Modelled from the spec: `encoder::write_length`, whose definition is not
under `src/` (spec §4.1): emits the variable-length encoding, failing for
values beyond the 4-byte ceiling 268435455. -/
def write_length (v : Nat) : Except RunError (List Nat) :=
  if v > 268435455 then .error .malformedLength else .ok (encodeLenCore v)

/-- Modelled from the spec: the loop of the remaining-length decoder (spec
§4.1): accumulates `(byte & 0x7F) * multiplier` with the multiplier starting at
1 and multiplied by 128 each iteration, stops on a byte with the high bit
clear, and fails with `MalformedLength` when a 5th byte would be required
(`count` is the number of continuation bytes already consumed) or when the
buffer runs out (§7: buffer underflow while reading the length). -/
def readLenCore : List Nat → Nat → Nat → Nat → Except RunError (Nat × List Nat)
  | [], _, _, _ => .error .malformedLength
  | byte :: rest, mult, acc, count =>
    let acc := acc + byte % 128 * mult
    if byte < 128 then .ok (acc, rest)
    else if 3 ≤ count then .error .malformedLength
    else readLenCore rest (mult * 128) acc (count + 1)

/-- Modelled from the spec: `decoder::read_length`, whose definition is not
under `src/` (spec §4.1). -/
def read_length (buffer : List Nat) : Except RunError (Nat × List Nat) :=
  readLenCore buffer 1 0 0

/-- `Connect::from_buffer` (connect.rs lines 23-70), translated step by step;
the two `.unwrap()` calls of the source (on `Protocol::new` and on
`QoS::from_u8`) are modelled by `unwrapE`. -/
def Connect.from_buffer (buffer : List Nat) : Except RunError (Connect × List Nat) := do
  let (protocol_name, buffer) ← read_string buffer
  let (protocol_level, buffer) ← readU8 buffer
  let protocol ← unwrapE (Protocol.new protocol_name protocol_level)
  let (connect_flags, buffer) ← readU8 buffer
  let (keep_alive, buffer) ← readU16 buffer
  let (client_id, buffer) ← read_string buffer
  let (last_will, buffer) ←
    if connect_flags &&& 0b100 ≠ 0 then do
      let (will_topic, buffer) ← read_string buffer
      let (will_message, buffer) ← read_string buffer
      let will_qod ← unwrapE (QoS.from_u8 ((connect_flags &&& 0b11000) >>> 3))
      pure (some { topic := will_topic, message := will_message, qos := will_qod,
                   retain := connect_flags &&& 0b00100000 != 0 }, buffer)
    else
      pure (none, buffer)
  let (username, buffer) ←
    if connect_flags &&& 0b10000000 ≠ 0 then do
      let (u, buffer) ← read_string buffer
      pure (some u, buffer)
    else
      pure (none, buffer)
  let (password, buffer) ←
    if connect_flags &&& 0b01000000 ≠ 0 then do
      let (p, buffer) ← read_string buffer
      pure (some p, buffer)
    else
      pure (none, buffer)
  let clean_session := connect_flags &&& 0b10 != 0
  .ok ({ protocol, keep_alive, client_id, clean_session, last_will, username, password }, buffer)

/-- The connect-flags byte accumulated by `Connect::to_buffer` (connect.rs
lines 74-98), with the same case order and the same bitwise operations. -/
def flagsOf (c : Connect) : Nat :=
  let f := 0
  let f := if c.clean_session then f ||| 0b10 else f
  let f := match c.username with
    | some _ => f ||| 0b10000000
    | none => f
  let f := match c.password with
    | some _ => f ||| 0b01000000
    | none => f
  match c.last_will with
  | some last_will =>
    let f := f ||| 0b00000100
    let f := f ||| (last_will.qos.to_u8 <<< 3)
    if last_will.retain then f ||| 0b00100000 else f
  | none => f

/-- The remaining-length value accumulated by `Connect::to_buffer` (connect.rs
lines 73-99), with the same summands in the same order: `6 + 1 + 1`, the client
id content length (with no summand for its 2-byte length prefix), username and
password content plus 2 each when present, will message and topic content plus
4 when present, and 2 for the keep-alive. -/
def lenOf (c : Connect) : Nat :=
  6 + 1 + 1 + c.client_id.length
  + (match c.username with
     | some username => username.length + 2
     | none => 0)
  + (match c.password with
     | some password => password.length + 2
     | none => 0)
  + (match c.last_will with
     | some last_will => last_will.message.length + last_will.topic.length + 4
     | none => 0)
  + 2

/-- `Connect::to_buffer` (connect.rs lines 71-123).  The flag and length
accumulation of lines 72-99 is factored into `flagsOf` and `lenOf`; the bytes
are emitted in the order of lines 102-120: header byte `0b00010000`, remaining
length, protocol name, protocol level, connect flags, keep-alive, client id,
then, each only when present, will topic, will message, username, password. -/
def Connect.to_buffer (c : Connect) : Except RunError (List Nat) := do
  let lenBytes ← write_length (lenOf c)
  let protoBytes ← write_string c.protocol.name
  let cidBytes ← write_string c.client_id
  let willBytes ←
    match c.last_will with
    | some last_will => do
      let t ← write_string last_will.topic
      let m ← write_string last_will.message
      pure (t ++ m)
    | none => pure []
  let unameBytes ←
    match c.username with
    | some username => write_string username
    | none => pure []
  let pwdBytes ←
    match c.password with
    | some password => write_string password
    | none => pure []
  pure ([0b00010000] ++ lenBytes ++ protoBytes ++ [c.protocol.level] ++ [flagsOf c]
        ++ u16be c.keep_alive ++ cidBytes ++ willBytes ++ unameBytes ++ pwdBytes)

/-- `Connack::from_buffer` (connect.rs lines 126-135). -/
def Connack.from_buffer (buffer : List Nat) : Except RunError (Connack × List Nat) := do
  let (flags, buffer) ← readU8 buffer
  let (return_code, buffer) ← readU8 buffer
  let code ← ConnectReturnCode.from_u8 return_code
  .ok ({ session_present := flags &&& 0b1 == 1, code }, buffer)

/-- Modelled from the spec: the fixed-header route of the dispatcher (spec
§4.3), whose definition (`header.rs` / `packet.rs`) is not under `src/`, for a
CONNECT frame: read the fixed-header byte and the remaining-length field, hand
exactly the next `remaining length` bytes to `Connect::from_buffer` (§4.3; §6
requires the transport to have delivered at least that many — fewer is the
`Truncated` protocol error), and report a mismatch between the declared
remaining length and the bytes actually consumed by the per-packet decoder as
the `TrailingData` protocol error (§4.3, §7). -/
def connectDecode (buffer : List Nat) : Except RunError Connect := do
  let (_, buffer) ← readU8 buffer
  let (len, buffer) ← read_length buffer
  if len ≤ buffer.length then
    let (c, leftover) ← Connect.from_buffer (buffer.take len)
    if leftover = [] then .ok c else .error .trailingData
  else
    .error .truncated

/-- Encode a `Connect`, then decode the produced bytes. -/
def connectRoundtrip (c : Connect) : Except RunError Connect :=
  (Connect.to_buffer c).bind connectDecode

/-! ### Helper lemmas about the field codecs -/

theorem read_string_encode (s tail : List Nat) (h : s.length ≤ 65535) :
    read_string (u16be s.length ++ (s ++ tail)) = .ok (s, tail) := by
  have hmod : s.length / 256 % 256 * 256 + s.length % 256 = s.length := by
    have h256 : s.length / 256 % 256 = s.length / 256 := Nat.mod_eq_of_lt (by omega)
    omega
  show read_string (s.length / 256 % 256 :: s.length % 256 :: (s ++ tail)) = .ok (s, tail)
  simp only [read_string, hmod]
  rw [if_pos (by simp)]
  rw [List.take_left, List.drop_left]

theorem write_string_ok (s : List Nat) (h : s.length ≤ 65535) :
    write_string s = .ok (u16be s.length ++ s) := by
  rw [write_string, if_neg (by omega)]

theorem readU16_u16be (n : Nat) (tail : List Nat) (h : n < 65536) :
    readU16 (u16be n ++ tail) = .ok (n, tail) := by
  show readU16 (n / 256 % 256 :: n % 256 :: tail) = .ok (n, tail)
  have hmod : n / 256 % 256 * 256 + n % 256 = n := by
    have h256 : n / 256 % 256 = n / 256 := Nat.mod_eq_of_lt (by omega)
    omega
  simp only [readU16, hmod]

theorem QoS.from_u8_to_u8 (q : QoS) : QoS.from_u8 q.to_u8 = .ok q := by
  cases q <;> rfl

theorem Protocol.new_name_level (p : Protocol) (h : p = .MQIsdp 3 ∨ p = .MQTT 4) :
    Protocol.new p.name p.level = .ok p := by
  rcases h with rfl | rfl <;> rfl

theorem protocol_name_fit (p : Protocol) : p.name.length ≤ 65535 := by
  rcases p with l | l <;> simp [Protocol.name, protocolNameMQIsdp, protocolNameMQTT]

theorem encodeLenLoop_congr : ∀ fuel1 fuel2 v, v < fuel1 → v < fuel2 →
    encodeLenLoop fuel1 v = encodeLenLoop fuel2 v := by
  intro fuel1
  induction fuel1 with
  | zero => omega
  | succ f1 ih =>
    intro fuel2 v h1 h2
    rcases fuel2 with _ | f2
    · omega
    · simp only [encodeLenLoop]
      by_cases h : v / 128 = 0
      · rw [if_pos h, if_pos h]
      · rw [if_neg h, if_neg h, ih f2 (v / 128) (by omega) (by omega)]

/-- `encodeLenCore` satisfies the defining recursion of the spec's encode loop. -/
theorem encodeLenCore_eq (v : Nat) : encodeLenCore v =
    if v / 128 = 0 then [v % 128] else (v % 128 + 128) :: encodeLenCore (v / 128) := by
  show encodeLenLoop (v + 1) v = _
  rw [encodeLenLoop]
  by_cases h : v / 128 = 0
  · rw [if_pos h, if_pos h]
  · rw [if_neg h, if_neg h]
    exact congrArg _ (encodeLenLoop_congr v (v / 128 + 1) (v / 128) (by omega) (by omega))

theorem readLenCore_encode (v : Nat) : ∀ (tail : List Nat) (mult acc count : Nat),
    v < 128 ^ (4 - count) → count < 4 →
    readLenCore (encodeLenCore v ++ tail) mult acc count = .ok (acc + v * mult, tail) := by
  induction v using Nat.strong_induction_on with
  | _ v ih =>
    intro tail mult acc count hv hcount
    rw [encodeLenCore_eq]
    by_cases h : v / 128 = 0
    · rw [if_pos h]
      show readLenCore (v % 128 :: tail) mult acc count = _
      simp only [readLenCore]
      rw [if_pos (by omega)]
      have hmm : acc + v % 128 % 128 * mult = acc + v * mult := by
        have hv128 : v % 128 % 128 = v := by omega
        rw [hv128]
      rw [hmm]
    · rw [if_neg h]
      have hvge : 128 ≤ v := by omega
      have hcount3 : count < 3 := by
        by_contra hc
        have hc3 : count = 3 := by omega
        subst hc3
        simp only [show 4 - 3 = 1 from rfl, pow_one] at hv
        omega
      have hv' : v / 128 < 128 ^ (4 - (count + 1)) := by
        have h4 : 4 - count = (4 - (count + 1)) + 1 := by omega
        rw [h4, pow_succ'] at hv
        exact Nat.div_lt_of_lt_mul hv
      show readLenCore ((v % 128 + 128) :: (encodeLenCore (v / 128) ++ tail)) mult acc count = _
      simp only [readLenCore]
      rw [if_neg (by omega), if_neg (by omega)]
      rw [ih (v / 128) (Nat.div_lt_self (by omega) (by omega)) tail (mult * 128)
            (acc + (v % 128 + 128) % 128 * mult) (count + 1) hv' (by omega)]
      have hmm : acc + (v % 128 + 128) % 128 * mult + v / 128 * (mult * 128) = acc + v * mult := by
        have h1 : (v % 128 + 128) % 128 = v % 128 := by omega
        rw [h1]
        conv_rhs => rw [← Nat.div_add_mod v 128]
        ring
      rw [hmm]

theorem read_length_encode (v : Nat) (tail : List Nat) (h : v ≤ 268435455) :
    read_length (encodeLenCore v ++ tail) = .ok (v, tail) := by
  have hh := readLenCore_encode v tail 1 0 0 (by norm_num; omega) (by omega)
  simpa [read_length] using hh

theorem write_length_ok (v : Nat) (h : v ≤ 268435455) :
    write_length v = .ok (encodeLenCore v) := by
  rw [write_length, if_neg (by omega)]

/-! ### The connect-flags byte and the wire layout of the Connect body -/

theorem flagsOf_and_will (c : Connect) :
    flagsOf c &&& 4 = if c.last_will.isSome then 4 else 0 := by
  obtain ⟨p, ka, cid, cs, lw, un, pw⟩ := c
  rcases cs <;> rcases un with _ | u <;> rcases pw with _ | pw2 <;>
    rcases lw with _ | ⟨t, m, q, r⟩ <;>
    first
      | (rcases q <;> rcases r <;> (simp [flagsOf, QoS.to_u8] <;> decide))
      | (simp [flagsOf, QoS.to_u8] <;> decide)

theorem flagsOf_and_qos (c : Connect) (w : LastWill) (hw : c.last_will = some w) :
    (flagsOf c &&& 24) >>> 3 = w.qos.to_u8 := by
  obtain ⟨p, ka, cid, cs, lw, un, pw⟩ := c
  rcases lw with _ | ⟨t, m, q, r⟩
  · exact absurd hw (by simp)
  · injection hw with hw2
    subst hw2
    rcases cs <;> rcases un with _ | u <;> rcases pw with _ | pw2 <;>
      rcases q <;> rcases r <;> simp [flagsOf, QoS.to_u8] <;> decide

theorem flagsOf_and_retain (c : Connect) (w : LastWill) (hw : c.last_will = some w) :
    (flagsOf c &&& 32 != 0) = w.retain := by
  obtain ⟨p, ka, cid, cs, lw, un, pw⟩ := c
  rcases lw with _ | ⟨t, m, q, r⟩
  · exact absurd hw (by simp)
  · injection hw with hw2
    subst hw2
    rcases cs <;> rcases un with _ | u <;> rcases pw with _ | pw2 <;>
      rcases q <;> rcases r <;> simp [flagsOf, QoS.to_u8] <;> decide

theorem flagsOf_and_username (c : Connect) :
    flagsOf c &&& 128 = if c.username.isSome then 128 else 0 := by
  obtain ⟨p, ka, cid, cs, lw, un, pw⟩ := c
  rcases cs <;> rcases un with _ | u <;> rcases pw with _ | pw2 <;>
    rcases lw with _ | ⟨t, m, q, r⟩ <;>
    first
      | (rcases q <;> rcases r <;> (simp [flagsOf, QoS.to_u8] <;> decide))
      | (simp [flagsOf, QoS.to_u8] <;> decide)

theorem flagsOf_and_password (c : Connect) :
    flagsOf c &&& 64 = if c.password.isSome then 64 else 0 := by
  obtain ⟨p, ka, cid, cs, lw, un, pw⟩ := c
  rcases cs <;> rcases un with _ | u <;> rcases pw with _ | pw2 <;>
    rcases lw with _ | ⟨t, m, q, r⟩ <;>
    first
      | (rcases q <;> rcases r <;> (simp [flagsOf, QoS.to_u8] <;> decide))
      | (simp [flagsOf, QoS.to_u8] <;> decide)

theorem flagsOf_and_clean (c : Connect) :
    (flagsOf c &&& 2 != 0) = c.clean_session := by
  obtain ⟨p, ka, cid, cs, lw, un, pw⟩ := c
  rcases cs <;> rcases un with _ | u <;> rcases pw with _ | pw2 <;>
    rcases lw with _ | ⟨t, m, q, r⟩ <;>
    first
      | (rcases q <;> rcases r <;> (simp [flagsOf, QoS.to_u8] <;> decide))
      | (simp [flagsOf, QoS.to_u8] <;> decide)

/-- All string/binary fields of the packet fit the 16-bit length prefixes, so
that every `write_string` call of the encoder succeeds. -/
def stringsFit (c : Connect) : Bool :=
  decide (c.client_id.length ≤ 65535) &&
  (match c.last_will with
   | some w => decide (w.topic.length ≤ 65535) && decide (w.message.length ≤ 65535)
   | none => true) &&
  (match c.username with
   | some u => decide (u.length ≤ 65535)
   | none => true) &&
  (match c.password with
   | some p => decide (p.length ≤ 65535)
   | none => true)

theorem lenOf_le (c : Connect) (hfit : stringsFit c = true) : lenOf c ≤ 268435455 := by
  obtain ⟨p, ka, cid, cs, lw, un, pw⟩ := c
  rcases lw with _ | ⟨t, m, q, r⟩ <;> rcases un with _ | u <;> rcases pw with _ | pw2 <;>
    simp only [stringsFit, lenOf, Bool.and_eq_true, decide_eq_true_eq] at hfit ⊢ <;> omega

/-- The body of the CONNECT packet as laid out on the wire by the encoder, in
the exact field order of `Connect::to_buffer` lines 104-120: protocol name,
protocol level, connect flags, keep-alive, client id, then, each only when
present, will topic, will message, username, password. -/
def wireBody (c : Connect) : List Nat :=
  (u16be c.protocol.name.length ++ c.protocol.name)
  ++ [c.protocol.level] ++ [flagsOf c] ++ u16be c.keep_alive
  ++ (u16be c.client_id.length ++ c.client_id)
  ++ (match c.last_will with
      | some w => (u16be w.topic.length ++ w.topic) ++ (u16be w.message.length ++ w.message)
      | none => [])
  ++ (match c.username with
      | some u => u16be u.length ++ u
      | none => [])
  ++ (match c.password with
      | some p => u16be p.length ++ p
      | none => [])

theorem to_buffer_wire (c : Connect) (hfit : stringsFit c = true) :
    Connect.to_buffer c = .ok ([0b00010000] ++ encodeLenCore (lenOf c) ++ wireBody c) := by
  have hlen := write_length_ok (lenOf c) (lenOf_le c hfit)
  have hproto := write_string_ok c.protocol.name (protocol_name_fit c.protocol)
  obtain ⟨p, ka, cid, cs, lw, un, pw⟩ := c
  rcases lw with _ | ⟨t, m, q, r⟩ <;> rcases un with _ | u <;> rcases pw with _ | pw2 <;>
    simp only [stringsFit, Bool.and_eq_true, decide_eq_true_eq] at hfit <;>
    simp [Connect.to_buffer, wireBody, hlen, hproto, write_string_ok, hfit,
          Bind.bind, Except.bind, Pure.pure, Except.pure, List.append_assoc]

theorem from_buffer_wire (c : Connect) (tail : List Nat)
    (hproto : c.protocol = .MQIsdp 3 ∨ c.protocol = .MQTT 4)
    (hka : c.keep_alive < 65536)
    (hfit : stringsFit c = true) :
    Connect.from_buffer (wireBody c ++ tail) = .ok (c, tail) := by
  have hn := Protocol.new_name_level c.protocol hproto
  have hnf := protocol_name_fit c.protocol
  obtain ⟨p, ka, cid, cs, lw, un, pw⟩ := c
  rcases lw with _ | ⟨t, m, q, r⟩ <;> rcases un with _ | u <;> rcases pw with _ | pw2 <;>
    simp only [stringsFit, Bool.and_eq_true, decide_eq_true_eq] at hfit <;>
    simp [Connect.from_buffer, wireBody, read_string_encode, readU8, readU16_u16be, hka,
          hnf, hfit, hn, unwrapE, flagsOf_and_will, flagsOf_and_username, flagsOf_and_password,
          flagsOf_and_clean, flagsOf_and_qos, flagsOf_and_retain, QoS.from_u8_to_u8,
          Bind.bind, Except.bind, Pure.pure, Except.pure, List.append_assoc]

/-! ### The claims -/

/-- A perfectly well-formed Connect packet: recognized protocol MQTT level 4,
keep-alive 60, client id "abc", clean session, no optional fields. -/
def roundTripConnect : Connect :=
  { protocol := .MQTT 4, keep_alive := 60, client_id := [97, 98, 99],
    clean_session := true, last_will := none, username := none, password := none }

/-- C1: the round-trip fails on the code as written, already for a perfectly
well-formed packet.  For `roundTripConnect` the encoder emits
`[16, 13, 0,4,'M','Q','T','T', 4, 2, 0,60, 0,3,'a','b','c']`: the declared
remaining length 13 is two bytes short of the 15-byte body (the C3 length
bug), so the §4.3 dispatcher hands only `[0,4,'M','Q','T','T',4,2,0,60,0,3,'a']`
to `Connect::from_buffer`, which runs out of bytes inside the client-id string
and panics; `decode(encode(P))` is not `P`. -/
theorem connect_roundtrip_fails :
    Connect.to_buffer roundTripConnect =
      .ok [16, 13, 0, 4, 77, 81, 84, 84, 4, 2, 0, 60, 0, 3, 97, 98, 99] ∧
    connectRoundtrip roundTripConnect = .error .panicked ∧
    connectRoundtrip roundTripConnect ≠ .ok roundTripConnect := by
  decide

/-- A Connect packet with every optional field present. -/
def fullConnect : Connect :=
  { protocol := .MQTT 4, keep_alive := 60, client_id := [97],
    clean_session := true,
    last_will := some { topic := [116], message := [109], qos := .AtLeastOnce, retain := true },
    username := some [117], password := some [112] }

/-- C2: on a buffer whose protocol-name/level pair is not recognized (here the
name "FOO" with level 0), `Connect::from_buffer` does not return the
`InvalidProtocol` failure to the caller: the `.unwrap()` on `Protocol::new`
(connect.rs line 26) aborts the process. -/
theorem connect_decode_bad_protocol_panics :
    Connect.from_buffer [0, 3, 70, 79, 79, 0] = .error .panicked := by
  decide

/-- The Connect packet exhibiting the remaining-length bug: MQTT level 4,
keep-alive 60, empty client id, no options. -/
def lengthBugConnect : Connect :=
  { protocol := .MQTT 4, keep_alive := 60, client_id := [],
    clean_session := false, last_will := none, username := none, password := none }

/-- C3: the remaining-length value written by the encoder is NOT the sum the
claim states.  For `lengthBugConnect` the encoder writes remaining length 10
(second byte of the output) while the body it then writes is 12 bytes long:
connect.rs line 78 adds the client id content without its 2-byte length
prefix.  The claimed sum is 6 (protocol name string with prefix) + 1 (level) +
1 (flags) + 2 (keep-alive) + 2 (client id prefix) + 0 (client id content)
= 12. -/
theorem connect_remaining_length_bug :
    Connect.to_buffer lengthBugConnect =
      .ok [16, 10, 0, 4, 77, 81, 84, 84, 4, 0, 0, 60, 0, 0] ∧
    lenOf lengthBugConnect = 10 ∧
    (wireBody lengthBugConnect).length = 12 := by
  decide

/-- C4: on a buffer whose connect-flags byte has bit 2 set and will-QoS bits
equal to 3 (flags byte 0b00011100 = 28, after a valid MQTT level-4 prefix,
keep-alive 60, empty client id, will topic "a" and will message "b"),
`Connect::from_buffer` does not return an error to the caller: the
`.unwrap()` on `QoS::from_u8` (connect.rs line 36) aborts the process. -/
theorem connect_decode_will_qos3_panics :
    Connect.from_buffer [0, 4, 77, 81, 84, 84, 4, 28, 0, 60, 0, 0, 0, 1, 97, 0, 1, 98] =
      .error .panicked := by
  decide

/-- C5: the variable-length ("remaining length") codec: decoding the encoding
of any value in [0, 268435455] yields that value back (and `write_length`
succeeds on it); encoding 0 produces exactly the single byte 0x00; and
decoding any byte sequence whose first four bytes all have the high
(continuation) bit set fails with `MalformedLength`. -/
theorem varlength_codec_spec :
    (∀ v, v ≤ 268435455 →
      write_length v = .ok (encodeLenCore v) ∧ read_length (encodeLenCore v) = .ok (v, [])) ∧
    write_length 0 = .ok [0] ∧
    (∀ b1 b2 b3 b4 tail, b1 &&& 128 ≠ 0 → b2 &&& 128 ≠ 0 → b3 &&& 128 ≠ 0 → b4 &&& 128 ≠ 0 →
      read_length (b1 :: b2 :: b3 :: b4 :: tail) = .error .malformedLength) := by
  have hand : ∀ b : Nat, b &&& 128 ≠ 0 → 128 ≤ b := by
    intro b hb
    by_contra hlt
    push_neg at hlt
    have h7 : b.testBit 7 = false := Nat.testBit_lt_two_pow (by omega)
    have h0 : b &&& 128 = 0 := by
      have h2 := Nat.and_two_pow b 7
      norm_num [h7] at h2
      exact h2
    exact hb h0
  have step : ∀ (b : Nat) (rest : List Nat) (mult acc count : Nat), ¬ b < 128 → count < 3 →
      readLenCore (b :: rest) mult acc count =
        readLenCore rest (mult * 128) (acc + b % 128 * mult) (count + 1) := by
    intro b rest mult acc count hb hc
    simp only [readLenCore]
    rw [if_neg hb, if_neg (by omega)]
  have last : ∀ (b : Nat) (rest : List Nat) (mult acc : Nat), ¬ b < 128 →
      readLenCore (b :: rest) mult acc 3 = .error .malformedLength := by
    intro b rest mult acc hb
    simp only [readLenCore]
    rw [if_neg hb, if_pos (by omega)]
  refine ⟨?_, by decide, ?_⟩
  · intro v hv
    refine ⟨write_length_ok v hv, ?_⟩
    have h := read_length_encode v [] hv
    rwa [List.append_nil] at h
  · intro b1 b2 b3 b4 tail h1 h2 h3 h4
    have k1 := hand b1 h1
    have k2 := hand b2 h2
    have k3 := hand b3 h3
    have k4 := hand b4 h4
    rw [read_length, step _ _ _ _ _ (by omega) (by omega), step _ _ _ _ _ (by omega) (by omega),
        step _ _ _ _ _ (by omega) (by omega), last _ _ _ _ (by omega)]

/-- C5 (witness): the codec at value 321 and at the all-continuation sequence
0xFF 0xFF 0xFF 0xFF. -/
theorem varlength_codec_spec_witness :
    read_length (encodeLenCore 321) = .ok (321, []) ∧
    read_length [255, 255, 255, 255] = .error .malformedLength :=
  ⟨(varlength_codec_spec.1 321 (by norm_num)).2,
   varlength_codec_spec.2.2 255 255 255 255 [] (by decide) (by decide) (by decide) (by decide)⟩

/-- The return-code table of the claim: 0 → Accepted, 1 → RefusedProtocolVersion,
2 → RefusedIdentifierRejected, 3 → ServerUnavailable, 4 → BadUsernamePassword,
5 → NotAuthorized, anything greater than 5 undefined. -/
def crcClaim : Nat → Option ConnectReturnCode
  | 0 => some .Accepted
  | 1 => some .RefusedProtocolVersion
  | 2 => some .RefusedIdentifierRejected
  | 3 => some .ServerUnavailable
  | 4 => some .BadUsernamePassword
  | 5 => some .NotAuthorized
  | _ => none

/-- C6: `Connack::from_buffer` reads exactly two bytes (whatever follows them
is returned untouched); session_present is bit 0 of the first byte; the second
byte is mapped by the 0-5 table; any second byte greater than 5 fails with the
invalid-value error; decoding [0x01, 0x00] yields session_present = true and
code Accepted; decoding [0x00, 0x06] fails. -/
theorem connack_decode_spec :
    (∀ (b1 b2 : Nat) (tail : List Nat) (c : ConnectReturnCode), crcClaim b2 = some c →
      Connack.from_buffer (b1 :: b2 :: tail) =
        .ok ({ session_present := b1 &&& 1 == 1, code := c }, tail)) ∧
    (∀ (b1 b2 : Nat) (tail : List Nat), 5 < b2 →
      Connack.from_buffer (b1 :: b2 :: tail) = .error (.ioError .invalidInput "")) ∧
    Connack.from_buffer [1, 0] = .ok ({ session_present := true, code := .Accepted }, []) ∧
    Connack.from_buffer [0, 6] = .error (.ioError .invalidInput "") := by
  refine ⟨?_, ?_, by decide, by decide⟩
  · intro b1 b2 tail c hc
    rcases b2 with _ | _ | _ | _ | _ | _ | b2 <;>
      simp_all [crcClaim, Connack.from_buffer, readU8, ConnectReturnCode.from_u8,
                Bind.bind, Except.bind]
  · intro b1 b2 tail h5
    rcases b2 with _ | _ | _ | _ | _ | _ | b2 <;>
      first
        | omega
        | simp [Connack.from_buffer, readU8, ConnectReturnCode.from_u8, Bind.bind, Except.bind]

/-- C6 (witness): the table at second byte 5, and failure at second byte 200. -/
theorem connack_decode_spec_witness :
    Connack.from_buffer [1, 5, 9] =
      .ok ({ session_present := 1 &&& 1 == 1, code := .NotAuthorized }, [9]) ∧
    Connack.from_buffer [0, 200] = .error (.ioError .invalidInput "") :=
  ⟨connack_decode_spec.1 1 5 [9] .NotAuthorized rfl,
   connack_decode_spec.2.1 0 200 [] (by omega)⟩

/-- C7: `PacketIdentifier::new(0)` always fails; for every value in
[1, 65535], `new` succeeds and `get()` on the result returns the value. -/
theorem packet_identifier_spec :
    PacketIdentifier.new 0 = .error (.ioError .invalidData "Pid == 0") ∧
    (∀ v, 1 ≤ v → v ≤ 65535 →
      PacketIdentifier.new v = .ok ⟨v⟩ ∧ PacketIdentifier.get ⟨v⟩ = v) := by
  refine ⟨rfl, fun v h1 h2 => ⟨?_, rfl⟩⟩
  rw [PacketIdentifier.new, if_neg (by omega)]

/-- C7 (witness): the validating factory at value 42. -/
theorem packet_identifier_spec_witness :
    PacketIdentifier.new 42 = .ok ⟨42⟩ ∧ PacketIdentifier.get ⟨42⟩ = 42 :=
  packet_identifier_spec.2 42 (by decide) (by decide)

/-- C8: the encoder writes the Connect body fields in the order protocol name,
protocol level, connect-flags, keep-alive, client id, then, each only when
present, will-topic, will-message, username, password (`wireBody` spells out
exactly this concatenation), and the decoder reads the very same layout back
into the corresponding fields. -/
theorem connect_wire_order (c : Connect) (tail : List Nat)
    (hproto : c.protocol = .MQIsdp 3 ∨ c.protocol = .MQTT 4)
    (hka : c.keep_alive < 65536)
    (hfit : stringsFit c = true) :
    Connect.to_buffer c = .ok ([0b00010000] ++ encodeLenCore (lenOf c) ++ wireBody c) ∧
    Connect.from_buffer (wireBody c ++ tail) = .ok (c, tail) :=
  ⟨to_buffer_wire c hfit, from_buffer_wire c tail hproto hka hfit⟩

/-- C8 (witness): the wire order at a concrete packet with every optional
field present, with two trailing bytes left untouched by the decoder. -/
theorem connect_wire_order_witness :
    Connect.to_buffer fullConnect =
      .ok ([0b00010000] ++ encodeLenCore (lenOf fullConnect) ++ wireBody fullConnect) ∧
    Connect.from_buffer (wireBody fullConnect ++ [7, 8]) = .ok (fullConnect, [7, 8]) :=
  connect_wire_order fullConnect [7, 8] (Or.inr rfl) (by decide) (by decide)

/-- A Connect body whose connect-flags byte is the given value: valid MQTT
level-4 prefix, keep-alive 60, client id "abc", then a username string "u"
and/or a password string "p" exactly when the corresponding flag bits are
set. -/
def willFlagClearBuffer (flags : Nat) : List Nat :=
  [0, 4, 77, 81, 84, 84, 4, flags, 0, 60, 0, 3, 97, 98, 99]
  ++ (if flags &&& 128 ≠ 0 then [0, 1, 117] else [])
  ++ (if flags &&& 64 ≠ 0 then [0, 1, 112] else [])

/-- The packet that decoding `willFlagClearBuffer flags` must produce when the
will bit of `flags` is clear. -/
def willFlagClearConnect (flags : Nat) : Connect :=
  { protocol := .MQTT 4, keep_alive := 60, client_id := [97, 98, 99],
    clean_session := flags &&& 2 != 0, last_will := none,
    username := if flags &&& 128 ≠ 0 then some [117] else none,
    password := if flags &&& 64 ≠ 0 then some [112] else none }

/-- C9: for every connect-flags byte with bit 2 (the will bit) clear, decode
succeeds with `last_will = None`, whatever the will-QoS bits 3-4 and the
will-retain bit 5 hold: those bits are ignored, not rejected. -/
theorem connect_decode_will_bit_clear (flags : Nat) (h256 : flags < 256)
    (h : flags &&& 4 = 0) :
    Connect.from_buffer (willFlagClearBuffer flags) = .ok (willFlagClearConnect flags, []) := by
  by_cases h7 : flags &&& 128 ≠ 0 <;> by_cases h6 : flags &&& 64 ≠ 0 <;>
    simp [willFlagClearBuffer, willFlagClearConnect, Connect.from_buffer, read_string,
          readU8, readU16, h, h7, h6, Protocol.new, protocolNameMQTT, protocolNameMQIsdp,
          unwrapE, Bind.bind, Except.bind, Pure.pure, Except.pure]

/-- C9 (witness): flags byte 0b00111000 = 56 (will-QoS bits = 3 and will-retain
set, will bit clear) decodes successfully with no last will. -/
theorem connect_decode_will_bit_clear_witness :
    Connect.from_buffer (willFlagClearBuffer 56) = .ok (willFlagClearConnect 56, []) :=
  connect_decode_will_bit_clear 56 (by decide) (by decide)

/-- C10: `Connack::from_buffer` never inspects bits 1-7 of the flags byte: two
inputs whose flags bytes agree on bit 0 and whose return-code bytes are equal
decode identically; in particular a flags byte with all reserved bits set
(0xFF) is accepted. -/
theorem connack_ignores_reserved_flag_bits :
    (∀ (f1 f2 rc : Nat) (tail : List Nat), f1 &&& 1 = f2 &&& 1 →
      Connack.from_buffer (f1 :: rc :: tail) = Connack.from_buffer (f2 :: rc :: tail)) ∧
    Connack.from_buffer [255, 0] = .ok ({ session_present := true, code := .Accepted }, []) := by
  refine ⟨fun f1 f2 rc tail h => ?_, by decide⟩
  simp [Connack.from_buffer, readU8, Bind.bind, Except.bind, h]

/-- C10 (witness): flags bytes 0xFF and 0x01 decode identically. -/
theorem connack_ignores_reserved_flag_bits_witness :
    Connack.from_buffer [255, 0, 9] = Connack.from_buffer [1, 0, 9] :=
  connack_ignores_reserved_flag_bits.1 255 1 0 [9] (by decide)

end Mqttrs
